import Mathlib

/-!
Verification of the client-side adaptive time-series cache of the
CAESER water-levels visualizer (mobile).

The development shallowly embeds the TypeScript sources:
* `src/lib/cache/IndexedDBCache.ts` — the durable key-value store
  (`set` / `get` / `delete` / `getAllKeys` / `size`, lazy TTL expiration);
* `src/lib/cache/SmartTimeSeriesCache.ts` — the time-series layer
  (cache keys, per-well invalidation, running hit statistics);
* `src/hooks/useViewModeData.ts` — the data orchestrator
  (`loadData`, adaptive sampling, background preloading);
* `src/contexts/ViewModeContext.tsx` and `src/types/viewModes.ts` —
  the view-mode navigation state machine and its static configuration.

JavaScript `Date` values are modelled as integral epoch milliseconds
(as in ECMA-262); the calendar functions below implement the proleptic
Gregorian calendar that `Date#toISOString`, `setMonth`, `setFullYear`
and the `date-fns` helpers use.  JavaScript numbers are modelled with
exact arithmetic (`Nat` / `Int` / `Rat`).
-/

namespace WLV

/-! ### Proleptic Gregorian calendar (model of ECMAScript `Date`) -/

/-- Number of days from 0000-03-01 up to the start of March-based year `y`
(in the proleptic Gregorian calendar a March-based year starts on 1 March,
so leap days fall at the end of a year). -/
def daysToMarchYear (y : Nat) : Nat := 365 * y + y / 4 - y / 100 + y / 400

/-- March-based year containing day `g` (days since 0000-03-01): the estimate
`400 * g / 146097` is corrected upwards by at most one. -/
def marchYearOf (g : Nat) : Nat :=
  let e := 400 * g / 146097
  if daysToMarchYear (e + 1) ≤ g then e + 1 else e

/-- Civil (year, month, day) of day `z` (days since 1970-01-01), proleptic
Gregorian — the calendar of ECMAScript `Date`.  `daysFromCivil` is its
two-sided inverse on the supported range (theorem
`daysFromCivil_civilFromDays`). -/
def civilFromDays (z : Nat) : Nat × Nat × Nat :=
  let g := z + 719468
  let y0 := marchYearOf g
  let doy := g - daysToMarchYear y0
  let mp := (5 * doy + 2) / 153
  let d := doy - (153 * mp + 2) / 5 + 1
  let m := if mp < 10 then mp + 3 else mp - 9
  (if m ≤ 2 then y0 + 1 else y0, m, d)

/-- Day count since 1970-01-01 of the civil date `(y, m, d)` (proleptic
Gregorian, model of ECMAScript `MakeDay`). -/
def daysFromCivil (y m d : Nat) : Int :=
  let y' := if m ≤ 2 then y - 1 else y
  (daysToMarchYear y' : Int) +
    ((153 * (if 2 < m then m - 3 else m + 9) + 2) / 5 + d - 1 : Nat) - 719468

theorem daysToMarchYear_estimate_le (g : Nat) :
    daysToMarchYear (400 * g / 146097) ≤ g := by
  unfold daysToMarchYear
  omega

theorem lt_daysToMarchYear_estimate_add_two (g : Nat) (hg : g ≤ 3652364) :
    g < daysToMarchYear (400 * g / 146097 + 1 + 1) := by
  unfold daysToMarchYear
  omega

theorem daysToMarchYear_le_bound (y : Nat) (h : daysToMarchYear y ≤ 3652364) :
    y ≤ 9999 := by
  unfold daysToMarchYear at h
  omega

theorem daysToMarchYear_step (y : Nat) :
    daysToMarchYear (y + 1) ≤ daysToMarchYear y + 366 := by
  unfold daysToMarchYear
  omega

/-- The corrected year estimate is exact: day `g` lies inside March-based year
`marchYearOf g`, and the remaining day-of-year is at most 365. -/
theorem marchYearOf_spec (g : Nat) (hg : g ≤ 3652364) :
    daysToMarchYear (marchYearOf g) ≤ g ∧
      g < daysToMarchYear (marchYearOf g) + 366 ∧ marchYearOf g ≤ 9999 := by
  have h1 := daysToMarchYear_estimate_le g
  have h2 := lt_daysToMarchYear_estimate_add_two g hg
  have h3 := daysToMarchYear_step (400 * g / 146097)
  have h4 := daysToMarchYear_step (400 * g / 146097 + 1)
  unfold marchYearOf
  simp only
  split_ifs with h
  · exact ⟨h, by omega, daysToMarchYear_le_bound _ (by omega)⟩
  · refine ⟨h1, by omega, ?_⟩
    have : 146097 * (400 * g / 146097) ≤ 146097 * 9999 + 146096 := by omega
    omega

/-- Month slot arithmetic: day-of-year `doy ≤ 365` splits into the `153`-pattern
month `mp` and day `d`, with exact reconstruction and the familiar bounds. -/
theorem monthSlot_spec (doy : Nat) (h : doy ≤ 365) :
    let mp := (5 * doy + 2) / 153
    let d := doy - (153 * mp + 2) / 5 + 1
    mp ≤ 11 ∧ (153 * mp + 2) / 5 ≤ doy ∧ (153 * mp + 2) / 5 + d - 1 = doy ∧
      1 ≤ d ∧ d ≤ 31 := by
  intro mp d
  refine ⟨by omega, by omega, by omega, by omega, by omega⟩

/-- Round trip: `daysFromCivil` recovers the day count from the civil date, for
every day up to 9999-12-31. -/
theorem daysFromCivil_civilFromDays (z : Nat) (hz : z ≤ 2932896) :
    daysFromCivil (civilFromDays z).1 (civilFromDays z).2.1 (civilFromDays z).2.2
      = (z : Int) := by
  obtain ⟨hA, hB, _⟩ := marchYearOf_spec (z + 719468) (by omega)
  have hm := monthSlot_spec ((z + 719468) - daysToMarchYear (marchYearOf (z + 719468)))
    (by omega)
  simp only at hm
  unfold civilFromDays daysFromCivil
  simp only
  split_ifs <;> (try simp only [Nat.add_sub_cancel]) <;> omega

/-- Component bounds of `civilFromDays` on the supported range. -/
theorem civilFromDays_bounds (z : Nat) (hz : z ≤ 2932896) :
    (civilFromDays z).1 ≤ 9999 ∧ 1 ≤ (civilFromDays z).2.1 ∧
      (civilFromDays z).2.1 ≤ 12 ∧ 1 ≤ (civilFromDays z).2.2 ∧
      (civilFromDays z).2.2 ≤ 31 := by
  obtain ⟨hA, hB, hC⟩ := marchYearOf_spec (z + 719468) (by omega)
  have hm := monthSlot_spec ((z + 719468) - daysToMarchYear (marchYearOf (z + 719468)))
    (by omega)
  simp only at hm
  have h9999 : marchYearOf (z + 719468) = 9999 →
      daysToMarchYear (marchYearOf (z + 719468)) = 3652059 := by
    intro h; rw [h]; rfl
  unfold civilFromDays
  simp only
  split_ifs <;> omega

/-- `civilFromDays` is injective on the supported range (immediate from the
round trip). -/
theorem civilFromDays_inj {z₁ z₂ : Nat} (h₁ : z₁ ≤ 2932896) (h₂ : z₂ ≤ 2932896)
    (hy : (civilFromDays z₁).1 = (civilFromDays z₂).1)
    (hm : (civilFromDays z₁).2.1 = (civilFromDays z₂).2.1)
    (hd : (civilFromDays z₁).2.2 = (civilFromDays z₂).2.2) : z₁ = z₂ := by
  have r₁ := daysFromCivil_civilFromDays z₁ h₁
  have r₂ := daysFromCivil_civilFromDays z₂ h₂
  rw [hy, hm, hd, r₂] at r₁
  exact_mod_cast r₁.symm

/-! ### `Date#toISOString`

A JavaScript `Date` holds an integral epoch-millisecond time value;
`toISOString` renders it as `YYYY-MM-DDTHH:mm:ss.sssZ` (ECMA-262).  The
component extractors below are the ECMA `HourFromTime` … operators restricted
to non-negative time values, and the renderer is modelled for time values up
to 9999-12-31T23:59:59.999Z (= 253402300799999), where the year always has
four digits. -/

def isoYear (t : Nat) : Nat := (civilFromDays (t / 86400000)).1

def isoMonth (t : Nat) : Nat := (civilFromDays (t / 86400000)).2.1

def isoDayOfMonth (t : Nat) : Nat := (civilFromDays (t / 86400000)).2.2

def isoHour (t : Nat) : Nat := t / 3600000 % 24

def isoMinute (t : Nat) : Nat := t / 60000 % 60

def isoSecond (t : Nat) : Nat := t / 1000 % 60

def isoMilli (t : Nat) : Nat := t % 1000

/-- Decimal rendering of `n < 100` padded with zeros to width 2. -/
def padChars2 (n : Nat) : List Char :=
  [Nat.digitChar (n / 10 % 10), Nat.digitChar (n % 10)]

/-- Decimal rendering of `n < 1000` padded with zeros to width 3. -/
def padChars3 (n : Nat) : List Char :=
  [Nat.digitChar (n / 100 % 10), Nat.digitChar (n / 10 % 10), Nat.digitChar (n % 10)]

/-- Decimal rendering of `n < 10000` padded with zeros to width 4. -/
def padChars4 (n : Nat) : List Char :=
  [Nat.digitChar (n / 1000 % 10), Nat.digitChar (n / 100 % 10),
    Nat.digitChar (n / 10 % 10), Nat.digitChar (n % 10)]

/-- The character sequence `YYYY-MM-DDTHH:mm:ss.sssZ` of `Date#toISOString`. -/
def isoChars (t : Nat) : List Char :=
  padChars4 (isoYear t) ++ '-' :: padChars2 (isoMonth t)
    ++ '-' :: padChars2 (isoDayOfMonth t)
    ++ 'T' :: padChars2 (isoHour t) ++ ':' :: padChars2 (isoMinute t)
    ++ ':' :: padChars2 (isoSecond t) ++ '.' :: padChars3 (isoMilli t) ++ ['Z']

/-- `Date#toISOString` on epoch milliseconds. -/
def toISOString (t : Nat) : String := String.mk (isoChars t)

theorem digitChar_inj_lt :
    ∀ a < 10, ∀ b < 10, Nat.digitChar a = Nat.digitChar b → a = b := by decide

theorem isoChars_length (t : Nat) : (isoChars t).length = 24 := rfl

/-- `toISOString` is injective on valid four-digit-year time values. -/
theorem isoChars_inj {t₁ t₂ : Nat}
    (h₁ : t₁ ≤ 253402300799999) (h₂ : t₂ ≤ 253402300799999)
    (h : isoChars t₁ = isoChars t₂) : t₁ = t₂ := by
  obtain ⟨hy₁, hmlo₁, hmhi₁, hdlo₁, hdhi₁⟩ := civilFromDays_bounds (t₁ / 86400000) (by omega)
  obtain ⟨hy₂, hmlo₂, hmhi₂, hdlo₂, hdhi₂⟩ := civilFromDays_bounds (t₂ / 86400000) (by omega)
  simp only [isoChars, padChars4, padChars3, padChars2, List.cons_append, List.nil_append,
    List.cons.injEq] at h
  obtain ⟨y3, y2, y1, y0, -, m1, m0, -, d1, d0, -, hh1, hh0, -, mi1, mi0, -,
    s1, s0, -, ms2, ms1, ms0, -⟩ := h
  have hy : isoYear t₁ = isoYear t₂ := by
    have e3 := digitChar_inj_lt _ (by omega) _ (by omega) y3
    have e2 := digitChar_inj_lt _ (by omega) _ (by omega) y2
    have e1 := digitChar_inj_lt _ (by omega) _ (by omega) y1
    have e0 := digitChar_inj_lt _ (by omega) _ (by omega) y0
    unfold isoYear at *
    omega
  have hm : isoMonth t₁ = isoMonth t₂ := by
    have e1 := digitChar_inj_lt _ (by omega) _ (by omega) m1
    have e0 := digitChar_inj_lt _ (by omega) _ (by omega) m0
    unfold isoMonth at *
    omega
  have hd : isoDayOfMonth t₁ = isoDayOfMonth t₂ := by
    have e1 := digitChar_inj_lt _ (by omega) _ (by omega) d1
    have e0 := digitChar_inj_lt _ (by omega) _ (by omega) d0
    unfold isoDayOfMonth at *
    omega
  have hz : t₁ / 86400000 = t₂ / 86400000 :=
    civilFromDays_inj (by omega) (by omega) hy hm hd
  have hhh : isoHour t₁ = isoHour t₂ := by
    have e1 := digitChar_inj_lt _ (by omega) _ (by omega) hh1
    have e0 := digitChar_inj_lt _ (by omega) _ (by omega) hh0
    unfold isoHour at *
    omega
  have hmi : isoMinute t₁ = isoMinute t₂ := by
    have e1 := digitChar_inj_lt _ (by omega) _ (by omega) mi1
    have e0 := digitChar_inj_lt _ (by omega) _ (by omega) mi0
    unfold isoMinute at *
    omega
  have hs : isoSecond t₁ = isoSecond t₂ := by
    have e1 := digitChar_inj_lt _ (by omega) _ (by omega) s1
    have e0 := digitChar_inj_lt _ (by omega) _ (by omega) s0
    unfold isoSecond at *
    omega
  have hms : isoMilli t₁ = isoMilli t₂ := by
    have e2 := digitChar_inj_lt _ (by omega) _ (by omega) ms2
    have e1 := digitChar_inj_lt _ (by omega) _ (by omega) ms1
    have e0 := digitChar_inj_lt _ (by omega) _ (by omega) ms0
    unfold isoMilli at *
    omega
  unfold isoHour isoMinute isoSecond isoMilli at *
  omega

theorem toISOString_inj {t₁ t₂ : Nat}
    (h₁ : t₁ ≤ 253402300799999) (h₂ : t₂ ≤ 253402300799999)
    (h : toISOString t₁ = toISOString t₂) : t₁ = t₂ := by
  apply isoChars_inj h₁ h₂
  have hd : (toISOString t₁).data = (toISOString t₂).data := by rw [h]
  exact hd

/-! ### Cache keys of `SmartTimeSeriesCache` (`getDataRange` / `cacheDataRange`)

`src/lib/cache/SmartTimeSeriesCache.ts` builds the cache key by the template
`wellNumber-startDate.toISOString()-endDate.toISOString()-resolution` with the
resolution drawn from the union type `high | medium | low`. -/

inductive Resolution where
  | high
  | medium
  | low
deriving DecidableEq

/-- The literal resolution token interpolated into a cache key. -/
def Resolution.str : Resolution → String
  | .high => "high"
  | .medium => "medium"
  | .low => "low"

/-- Key template of `SmartTimeSeriesCache.getDataRange` / `cacheDataRange`. -/
def dataRangeKey (wellNumber : String) (startMs endMs : Nat) (res : Resolution) :
    String :=
  wellNumber ++ ("-") ++ toISOString startMs ++ ("-") ++ toISOString endMs
    ++ ("-") ++ res.str

theorem string_data_inj {a b : String} (h : a.data = b.data) : a = b := by
  cases a
  cases b
  exact congrArg String.mk h

theorem string_data_append (a b : String) : (a ++ b).data = a.data ++ b.data := by
  cases a
  cases b
  rfl

theorem dataRangeKey_data (wellNumber : String) (startMs endMs : Nat)
    (res : Resolution) :
    (dataRangeKey wellNumber startMs endMs res).data
      = wellNumber.data ++ '-' :: (isoChars startMs
          ++ '-' :: (isoChars endMs ++ '-' :: res.str.data)) := by
  cases res <;>
    simp [dataRangeKey, toISOString, string_data_append, List.append_assoc]

/-- The last character of a cache key identifies the resolution token. -/
theorem dataRangeKey_last (wellNumber : String) (startMs endMs : Nat)
    (res : Resolution) :
    (dataRangeKey wellNumber startMs endMs res).data.reverse.head?
      = some (match res with | .high => 'h' | .medium => 'm' | .low => 'w') := by
  cases res <;>
    simp [dataRangeKey_data, Resolution.str, List.reverse_append, List.reverse_cons]

/-- Peeling a key equality after the resolution tokens agree. -/
theorem dataRangeKey_peel {w₁ w₂ : String} {s₁ e₁ s₂ e₂ : Nat} {r : Resolution}
    (hs₁ : s₁ ≤ 253402300799999) (he₁ : e₁ ≤ 253402300799999)
    (hs₂ : s₂ ≤ 253402300799999) (he₂ : e₂ ≤ 253402300799999)
    (h : dataRangeKey w₁ s₁ e₁ r = dataRangeKey w₂ s₂ e₂ r) :
    w₁ = w₂ ∧ s₁ = s₂ ∧ e₁ = e₂ := by
  have hd : (dataRangeKey w₁ s₁ e₁ r).data = (dataRangeKey w₂ s₂ e₂ r).data := by
    rw [h]
  rw [dataRangeKey_data, dataRangeKey_data] at hd
  have hlen : ('-' :: (isoChars s₁ ++ '-' :: (isoChars e₁ ++ '-' :: r.str.data))).length
      = ('-' :: (isoChars s₂ ++ '-' :: (isoChars e₂ ++ '-' :: r.str.data))).length := by
    simp [isoChars_length]
  obtain ⟨hw, hrest⟩ := List.append_inj' hd hlen
  rw [List.cons.injEq] at hrest
  obtain ⟨hs, hrest⟩ := List.append_inj' hrest.2 (by simp [isoChars_length])
  rw [List.cons.injEq] at hrest
  obtain ⟨he, -⟩ := List.append_inj' hrest.2 (by simp [isoChars_length])
  exact ⟨string_data_inj hw, isoChars_inj hs₁ hs₂ hs, isoChars_inj he₁ he₂ he⟩

/-- The cache-key template is injective on the full tuple
`(wellNumber, startDate, endDate, resolution)` for valid date values — even
when the well identifier itself contains the `-` separator. -/
theorem dataRangeKey_inj {w₁ w₂ : String} {s₁ e₁ s₂ e₂ : Nat}
    {r₁ r₂ : Resolution}
    (hs₁ : s₁ ≤ 253402300799999) (he₁ : e₁ ≤ 253402300799999)
    (hs₂ : s₂ ≤ 253402300799999) (he₂ : e₂ ≤ 253402300799999)
    (h : dataRangeKey w₁ s₁ e₁ r₁ = dataRangeKey w₂ s₂ e₂ r₂) :
    w₁ = w₂ ∧ s₁ = s₂ ∧ e₁ = e₂ ∧ r₁ = r₂ := by
  have hr : r₁ = r₂ := by
    have hl₁ := dataRangeKey_last w₁ s₁ e₁ r₁
    have hl₂ := dataRangeKey_last w₂ s₂ e₂ r₂
    rw [h, hl₂] at hl₁
    cases r₁ <;> cases r₂ <;> simp_all
  subst hr
  obtain ⟨hw, hs, he⟩ := dataRangeKey_peel hs₁ he₁ hs₂ he₂ h
  exact ⟨hw, hs, he, rfl⟩

/-! ### Durable key-value store (`src/lib/cache/IndexedDBCache.ts`)

The IndexedDB object store (keyPath `key`) holds entries
`{key, data, timestamp, ttl}`.  It is modelled as a list of entries with
pairwise-distinct keys; `set` replaces any entry with the same key, `get`
applies the lazy-expiration check `Date.now() > entry.timestamp + entry.ttl`
and fires `delete` for an expired entry before resolving `null`.  The value
type is a parameter, as the store holds `data: any`. -/

structure CacheEntry (α : Type) where
  key : String
  data : α
  timestamp : Nat
  ttl : Nat
deriving DecidableEq

abbrev Store (α : Type) := List (CacheEntry α)

namespace IndexedDBCache

/-- `IndexedDBCache.set`: `store.put` of `{key, data, timestamp: Date.now(), ttl}`. -/
def set {α : Type} (st : Store α) (key : String) (data : α) (ttl : Nat) (now : Nat) :
    Store α :=
  List.filter (fun e => e.key != key) st ++ [⟨key, data, now, ttl⟩]

/-- `IndexedDBCache.delete`: `store.delete(key)`. -/
def delete {α : Type} (st : Store α) (key : String) : Store α :=
  List.filter (fun e => e.key != key) st

/-- `IndexedDBCache.get`: resolves the entry for `key`; a missing entry gives
`null`; an expired entry (`Date.now() > entry.timestamp + entry.ttl`) is
deleted and gives `null`; otherwise `entry.data` is returned.  The second
component is the store after the side effects. -/
def get {α : Type} (st : Store α) (key : String) (now : Nat) : Option α × Store α :=
  match List.find? (fun e => e.key == key) st with
  | none => (none, st)
  | some e =>
      if now > e.timestamp + e.ttl then (none, delete st key) else (some e.data, st)

/-- `IndexedDBCache.clear`: `store.clear()`. -/
def clear {α : Type} (_st : Store α) : Store α := []

/-- `IndexedDBCache.getAllKeys`. -/
def getAllKeys {α : Type} (st : Store α) : List String :=
  List.map (fun e => e.key) st

/-- `IndexedDBCache.size`: `store.count()`. -/
def size {α : Type} (st : Store α) : Nat := List.length st

end IndexedDBCache

theorem mem_delete_iff {α : Type} (st : Store α) (key k : String) :
    k ∈ IndexedDBCache.getAllKeys (IndexedDBCache.delete st key)
      ↔ k ∈ IndexedDBCache.getAllKeys st ∧ k ≠ key := by
  simp only [IndexedDBCache.getAllKeys, IndexedDBCache.delete, List.mem_map,
    List.mem_filter, bne_iff_ne, ne_eq, decide_eq_true_eq]
  aesop

theorem delete_not_mem {α : Type} (st : Store α) (key : String) :
    key ∉ IndexedDBCache.getAllKeys (IndexedDBCache.delete st key) := by
  intro h
  exact ((mem_delete_iff st key key).1 h).2 rfl

/-- After `set`, the stored keys are exactly the old ones plus the new key:
no entry is ever evicted by a write. -/
theorem mem_set_iff {α : Type} (st : Store α) (key : String) (data : α)
    (ttl now : Nat) (k : String) :
    k ∈ IndexedDBCache.getAllKeys (IndexedDBCache.set st key data ttl now)
      ↔ k ∈ IndexedDBCache.getAllKeys st ∨ k = key := by
  simp only [IndexedDBCache.getAllKeys, IndexedDBCache.set, List.mem_map,
    List.mem_append, List.mem_filter, List.mem_singleton, bne_iff_ne, ne_eq,
    decide_eq_true_eq]
  constructor
  · rintro ⟨e, (⟨he, -⟩ | rfl), rfl⟩
    · exact Or.inl ⟨e, he, rfl⟩
    · exact Or.inr rfl
  · rintro (⟨e, he, rfl⟩ | rfl)
    · by_cases hk : e.key = key
      · exact ⟨⟨key, data, now, ttl⟩, Or.inr rfl, hk.symm⟩
      · exact ⟨e, Or.inl ⟨he, hk⟩, rfl⟩
    · exact ⟨⟨_, data, now, ttl⟩, Or.inr rfl, rfl⟩

/-- Behaviour of `IndexedDBCache.get` on a stored entry: while
`now ≤ timestamp + ttl` the stored payload is returned and the store is
untouched; once `now > timestamp + ttl` the entry is deleted as a side effect
and `null` is returned. -/
theorem get_spec {α : Type} (st : Store α) (key : String) (e : CacheEntry α)
    (now : Nat) (hfind : List.find? (fun x => x.key == key) st = some e) :
    (now ≤ e.timestamp + e.ttl →
        IndexedDBCache.get st key now = (some e.data, st)) ∧
      (e.timestamp + e.ttl < now →
        IndexedDBCache.get st key now = (none, IndexedDBCache.delete st key) ∧
          key ∉ IndexedDBCache.getAllKeys (IndexedDBCache.get st key now).2) := by
  constructor
  · intro hle
    unfold IndexedDBCache.get
    rw [hfind]
    simp only [gt_iff_lt]
    rw [if_neg (by omega)]
  · intro hlt
    unfold IndexedDBCache.get
    rw [hfind]
    simp only [gt_iff_lt]
    rw [if_pos (by omega)]
    exact ⟨rfl, delete_not_mem st key⟩

/-- `IndexedDBCache.get` on an absent key: `null`, store untouched. -/
theorem get_absent {α : Type} (st : Store α) (key : String) (now : Nat)
    (hfind : List.find? (fun x => x.key == key) st = none) :
    IndexedDBCache.get st key now = (none, st) := by
  unfold IndexedDBCache.get
  rw [hfind]

/-! ### Time-series layer (`src/lib/cache/SmartTimeSeriesCache.ts`)

`SmartTimeSeriesCache extends IndexedDBCache` and adds running statistics.
The readings payload `{timestamp, value, wellNumber}` is carried opaquely
(`value` is a JavaScript number that the cache never computes with, modelled
exactly). -/

structure TimeSeriesData where
  timestamp : Nat
  value : Int
  wellNumber : String
deriving DecidableEq

structure CacheStats where
  hitRate : Rat
  totalRequests : Nat
  totalHits : Nat
  cacheSize : Nat
  avgResponseTime : Rat

structure SmartCacheState where
  store : Store (List TimeSeriesData)
  stats : CacheStats

/-- The statistics the class is constructed with (all zero). -/
def initialStats : CacheStats :=
  { hitRate := 0, totalRequests := 0, totalHits := 0, cacheSize := 0,
    avgResponseTime := 0 }

/-- `cacheTimeSeriesData(key, data, ttl = 3600000)`: `set` then refresh
`stats.cacheSize` from `size()`. -/
def cacheTimeSeriesData (s : SmartCacheState) (key : String)
    (data : List TimeSeriesData) (ttl : Nat) (now : Nat) : SmartCacheState :=
  let store' := IndexedDBCache.set s.store key data ttl now
  { store := store',
    stats := { s.stats with cacheSize := IndexedDBCache.size store' } }

/-- `getTimeSeriesData(key)`: bump `totalRequests`, perform the store `get`,
bump `totalHits` on a non-null result, recompute `hitRate` and
`avgResponseTime` (the elapsed wall-clock time is the `responseTime`
argument). -/
def getTimeSeriesData (s : SmartCacheState) (key : String) (now : Nat)
    (responseTime : Rat) : Option (List TimeSeriesData) × SmartCacheState :=
  let requests := s.stats.totalRequests + 1
  let res := IndexedDBCache.get s.store key now
  let hits := if res.1.isSome then s.stats.totalHits + 1 else s.stats.totalHits
  (res.1,
    { store := res.2,
      stats :=
        { hitRate := ((hits : Rat) / (requests : Rat)) * 100,
          totalRequests := requests,
          totalHits := hits,
          cacheSize := s.stats.cacheSize,
          avgResponseTime :=
            (s.stats.avgResponseTime * ((requests : Rat) - 1) + responseTime)
              / (requests : Rat) } })

/-- `getDataRange`: key template plus `getTimeSeriesData`. -/
def getDataRange (s : SmartCacheState) (wellNumber : String)
    (startDate endDate : Nat) (res : Resolution) (now : Nat)
    (responseTime : Rat) : Option (List TimeSeriesData) × SmartCacheState :=
  getTimeSeriesData s (dataRangeKey wellNumber startDate endDate res) now
    responseTime

/-- `cacheDataRange`: key template plus `cacheTimeSeriesData`. -/
def cacheDataRange (s : SmartCacheState) (wellNumber : String)
    (startDate endDate : Nat) (data : List TimeSeriesData) (res : Resolution)
    (ttl : Nat) (now : Nat) : SmartCacheState :=
  cacheTimeSeriesData s (dataRangeKey wellNumber startDate endDate res) data ttl
    now

/-- `invalidateWellData(wellNumber)`: list all keys, keep those that start with
`` `${wellNumber}-` ``, delete each one, refresh `stats.cacheSize`.  The
JavaScript `String.prototype.startsWith` test is modelled by `leadsWith` on
character lists. -/
def leadsWith : List Char → List Char → Bool
  | [], _ => true
  | _ :: _, [] => false
  | p :: ps, c :: cs => p == c && leadsWith ps cs

def jsStartsWith (s pre : String) : Bool := leadsWith pre.data s.data

def invalidateWellData (s : SmartCacheState) (wellNumber : String) :
    SmartCacheState :=
  let allKeys := IndexedDBCache.getAllKeys s.store
  let wellKeys := List.filter (fun key => jsStartsWith key (wellNumber ++ ("-"))) allKeys
  let store' := wellKeys.foldl (fun st key => IndexedDBCache.delete st key) s.store
  { store := store',
    stats := { s.stats with cacheSize := IndexedDBCache.size store' } }

/-- `clearStats()`. -/
def clearStats (s : SmartCacheState) : SmartCacheState :=
  { store := s.store,
    stats := { hitRate := 0, totalRequests := 0, totalHits := 0,
               cacheSize := IndexedDBCache.size s.store, avgResponseTime := 0 } }

theorem leadsWith_append (p t : List Char) : leadsWith p (p ++ t) = true := by
  induction p with
  | nil => rfl
  | cons c cs ih => simp [leadsWith, ih]

/-- Every cache key built for `wellNumber` starts with `` `${wellNumber}-` ``. -/
theorem dataRangeKey_jsStartsWith (wellNumber : String) (startMs endMs : Nat)
    (res : Resolution) :
    jsStartsWith (dataRangeKey wellNumber startMs endMs res)
      (wellNumber ++ ("-")) = true := by
  unfold jsStartsWith
  rw [string_data_append, dataRangeKey_data]
  have h : wellNumber.data ++ '-' :: (isoChars startMs
      ++ '-' :: (isoChars endMs ++ '-' :: res.str.data))
      = (wellNumber.data ++ ("-").data)
        ++ (isoChars startMs ++ '-' :: (isoChars endMs ++ '-' :: res.str.data)) := by
    simp
  rw [h]
  exact leadsWith_append _ _

theorem mem_foldl_delete {α : Type} (ks : List String) (st : Store α)
    (k : String) :
    k ∈ IndexedDBCache.getAllKeys
        (ks.foldl (fun st key => IndexedDBCache.delete st key) st)
      ↔ k ∈ IndexedDBCache.getAllKeys st ∧ k ∉ ks := by
  induction ks generalizing st with
  | nil => simp
  | cons x xs ih =>
      rw [List.foldl_cons, ih, mem_delete_iff]
      simp only [List.mem_cons]
      tauto

/-- The net effect of `invalidateWellData`: a key survives exactly when it does
not start with `` `${wellNumber}-` ``. -/
theorem mem_invalidateWellData_iff (s : SmartCacheState) (wellNumber k : String) :
    k ∈ IndexedDBCache.getAllKeys (invalidateWellData s wellNumber).store
      ↔ k ∈ IndexedDBCache.getAllKeys s.store ∧
          jsStartsWith k (wellNumber ++ ("-")) = false := by
  unfold invalidateWellData
  simp only
  rw [mem_foldl_delete, List.mem_filter]
  constructor
  · rintro ⟨hk, hnot⟩
    refine ⟨hk, ?_⟩
    by_cases hb : jsStartsWith k (wellNumber ++ ("-")) = true
    · exact absurd ⟨hk, hb⟩ hnot
    · simpa using hb
  · rintro ⟨hk, hfalse⟩
    exact ⟨hk, fun hmem => by rw [hmem.2] at hfalse; cases hfalse⟩

/-- `cacheTimeSeriesData` only ever adds its own key: no stored segment is
evicted by a write, whatever the sizes of the stored payloads. -/
theorem mem_cacheTimeSeriesData_iff (s : SmartCacheState) (key : String)
    (data : List TimeSeriesData) (ttl now : Nat) (k : String) :
    k ∈ IndexedDBCache.getAllKeys (cacheTimeSeriesData s key data ttl now).store
      ↔ k ∈ IndexedDBCache.getAllKeys s.store ∨ k = key := by
  unfold cacheTimeSeriesData
  exact mem_set_iff s.store key data ttl now k

/-! ### Statistics runs (`getTimeSeriesData` over a sequence of lookups) -/

/-- A lookup: requested key, wall-clock time at the request, elapsed response
time. -/
structure Lookup where
  key : String
  now : Nat
  responseTime : Rat

/-- Run a sequence of `getTimeSeriesData` calls, threading the state. -/
def runLookups (s : SmartCacheState) : List Lookup → SmartCacheState
  | [] => s
  | l :: ls => runLookups (getTimeSeriesData s l.key l.now l.responseTime).2 ls

/-- How many of the lookups the underlying store answers with a present,
unexpired value (threading the store, since an expiring read deletes). -/
def hitCount (st : Store (List TimeSeriesData)) : List Lookup → Nat
  | [] => 0
  | l :: ls =>
      (if (IndexedDBCache.get st l.key l.now).1.isSome then 1 else 0)
        + hitCount (IndexedDBCache.get st l.key l.now).2 ls

theorem getTimeSeriesData_step (s : SmartCacheState) (k : String) (now : Nat)
    (rt : Rat) :
    (getTimeSeriesData s k now rt).2.stats.totalRequests
        = s.stats.totalRequests + 1 ∧
      (getTimeSeriesData s k now rt).2.stats.totalHits
        = s.stats.totalHits
            + (if (IndexedDBCache.get s.store k now).1.isSome then 1 else 0) ∧
      (getTimeSeriesData s k now rt).2.store
        = (IndexedDBCache.get s.store k now).2 ∧
      (getTimeSeriesData s k now rt).2.stats.hitRate
        = ((getTimeSeriesData s k now rt).2.stats.totalHits : Rat)
            / ((getTimeSeriesData s k now rt).2.stats.totalRequests : Rat)
            * 100 := by
  by_cases h : (IndexedDBCache.get s.store k now).1.isSome <;>
    simp [getTimeSeriesData, h]

theorem runLookups_stats (ls : List Lookup) (s : SmartCacheState) :
    (runLookups s ls).stats.totalRequests
        = s.stats.totalRequests + ls.length ∧
      (runLookups s ls).stats.totalHits
        = s.stats.totalHits + hitCount s.store ls ∧
      (0 < ls.length → (runLookups s ls).stats.hitRate
        = ((runLookups s ls).stats.totalHits : Rat)
            / ((runLookups s ls).stats.totalRequests : Rat) * 100) := by
  induction ls generalizing s with
  | nil => simp [runLookups, hitCount]
  | cons l ls ih =>
      obtain ⟨hreq, hhits, hstore, hrate⟩ :=
        getTimeSeriesData_step s l.key l.now l.responseTime
      obtain ⟨ireq, ihits, irate⟩ :=
        ih (getTimeSeriesData s l.key l.now l.responseTime).2
      refine ⟨?_, ?_, ?_⟩
      · simp only [runLookups]
        rw [ireq, hreq]
        simp only [List.length_cons]
        omega
      · simp only [runLookups, hitCount]
        rw [ihits, hhits, hstore]
        omega
      · intro _
        simp only [runLookups]
        rcases List.eq_nil_or_concat ls with hnil | ⟨ls', l', rfl⟩
        · subst hnil
          simp only [runLookups]
          exact hrate
        · exact irate (by simp)

/-! ### View-mode configuration (`src/types/viewModes.ts`)

The four mode identifiers `full | 1year | 6month | 1month` (digits cannot
start a Lean identifier, hence `y1 | m6 | m1`) with the fields of
`VIEW_MODES` that the cache core reads: `samplingRate`, `targetPoints`,
`preloadStrategy` and `navigationStep`. -/

inductive ViewModeType where
  | full
  | y1
  | m6
  | m1
deriving DecidableEq

inductive StepUnit where
  | day
  | month
  | year
deriving DecidableEq

structure NavigationStep where
  value : Nat
  unit : StepUnit

structure ViewModeConfig where
  id : ViewModeType
  samplingRate : String
  targetPoints : Nat
  preloadStrategy : List Int
  navigationStep : NavigationStep

def VIEW_MODES : ViewModeType → ViewModeConfig
  | .full =>
      { id := .full, samplingRate := "adaptive", targetPoints := 5000,
        preloadStrategy := [0], navigationStep := ⟨1, .year⟩ }
  | .y1 =>
      { id := .y1, samplingRate := "12hour", targetPoints := 730,
        preloadStrategy := [-1, 0, 1], navigationStep := ⟨1, .year⟩ }
  | .m6 =>
      { id := .m6, samplingRate := "6hour", targetPoints := 720,
        preloadStrategy := [-1, 0, 1], navigationStep := ⟨6, .month⟩ }
  | .m1 =>
      { id := .m1, samplingRate := "15min", targetPoints := 2880,
        preloadStrategy := [-1, 0, 1], navigationStep := ⟨1, .month⟩ }

/-! ### `date-fns` arithmetic on epoch milliseconds

`addMonths` keeps the day-of-month, clamping to the length of the target
month; `addYears n = addMonths (12 n)`; `startOfMonth` / `endOfMonth` snap to
the first/last millisecond of the month.  All functions are modelled in UTC on
non-negative epoch milliseconds. -/

def msOfDay (t : Nat) : Nat := t % 86400000

def epochDay (t : Nat) : Nat := t / 86400000

def isLeapYear (y : Nat) : Bool := y % 4 = 0 && (y % 100 != 0 || y % 400 = 0)

def daysInMonth (y m : Nat) : Nat :=
  if m = 2 then (if isLeapYear y then 29 else 28)
  else if m = 4 ∨ m = 6 ∨ m = 9 ∨ m = 11 then 30 else 31

/-- `date-fns` `addMonths` (day-of-month clamped into the target month). -/
def addMonthsDF (t : Nat) (n : Int) : Nat :=
  let c := civilFromDays (epochDay t)
  let tm : Int := (c.1 : Int) * 12 + (c.2.1 : Int) - 1 + n
  let y' := (tm.fdiv 12).toNat
  let m' := (tm.emod 12).toNat + 1
  let d' := min c.2.2 (daysInMonth y' m')
  (daysFromCivil y' m' d').toNat * 86400000 + msOfDay t

def subMonthsDF (t : Nat) (n : Int) : Nat := addMonthsDF t (-n)

def addYearsDF (t : Nat) (n : Int) : Nat := addMonthsDF t (12 * n)

def subYearsDF (t : Nat) (n : Int) : Nat := addMonthsDF t (-(12 * n))

def startOfMonthDF (t : Nat) : Nat :=
  let c := civilFromDays (epochDay t)
  (daysFromCivil c.1 c.2.1 1).toNat * 86400000

def endOfMonthDF (t : Nat) : Nat :=
  let c := civilFromDays (epochDay t)
  (daysFromCivil c.1 c.2.1 (daysInMonth c.1 c.2.1)).toNat * 86400000 + 86399999

/-! ### Navigation state machine (`src/contexts/ViewModeContext.tsx`) -/

structure DateRange where
  start : Nat
  stop : Nat

/-- `calculateDateRange(mode, center)`: `full` with a known data range returns
it; `1year`/`6month` put `center` in the middle; `1month` snaps to the month;
`full` without a data range falls back to the last five years from `now`. -/
def calculateDateRange (dataRange : Option DateRange) (now : Nat)
    (mode : ViewModeType) (center : Nat) : DateRange :=
  match mode, dataRange with
  | .full, some dr => dr
  | .y1, _ => ⟨subMonthsDF center 6, addMonthsDF center 6⟩
  | .m6, _ => ⟨subMonthsDF center 3, addMonthsDF center 3⟩
  | .m1, _ => ⟨startOfMonthDF center, endOfMonthDF center⟩
  | .full, none => ⟨subYearsDF now 5, now⟩

/-- The candidate center date one navigation step back. -/
def prevTestDate (mode : ViewModeType) (center : Nat) : Nat :=
  let step := (VIEW_MODES mode).navigationStep
  match step.unit with
  | .year => subYearsDF center step.value
  | .month => subMonthsDF center step.value
  | .day => center

/-- The candidate center date one navigation step forward. -/
def nextTestDate (mode : ViewModeType) (center : Nat) : Nat :=
  let step := (VIEW_MODES mode).navigationStep
  match step.unit with
  | .year => addYearsDF center step.value
  | .month => addMonthsDF center step.value
  | .day => center

/-- `canNavigatePrevious`: with no known data range, always true; otherwise
simulate one step back and require the stepped range to start no earlier than
the dataset. -/
def canNavigatePrevious (dataRange : Option DateRange) (now : Nat)
    (mode : ViewModeType) (center : Nat) : Bool :=
  match dataRange with
  | none => true
  | some dr =>
      let testRange := calculateDateRange dataRange now mode
        (prevTestDate mode center)
      decide (dr.start ≤ testRange.start)

/-- `canNavigateNext`: simulate one step forward and require the stepped range
to end no later than the dataset. -/
def canNavigateNext (dataRange : Option DateRange) (now : Nat)
    (mode : ViewModeType) (center : Nat) : Bool :=
  match dataRange with
  | none => true
  | some dr =>
      let testRange := calculateDateRange dataRange now mode
        (nextTestDate mode center)
      decide (testRange.stop ≤ dr.stop)


/-! ### Adaptive sampling (`useViewModeData.calculateFullViewSampling`)

`totalDays = differenceInDays(end, start)`, `totalMinutes = totalDays*24*60`,
`minutesPerPoint = Math.ceil(totalMinutes / targetPoints)` (exact ceiling
division, meaningful for `targetPoints > 0`; the configured values are
720–5000), then the first rung of the fixed ladder that is not exceeded. -/

/-- The rounding if-chain of `calculateFullViewSampling` (lines 89–97). -/
def roundToInterval (minutesPerPoint : Nat) : String :=
  if minutesPerPoint ≤ 15 then ("15min")
  else if minutesPerPoint ≤ 30 then ("30min")
  else if minutesPerPoint ≤ 60 then ("1hour")
  else if minutesPerPoint ≤ 180 then ("3hour")
  else if minutesPerPoint ≤ 360 then ("6hour")
  else if minutesPerPoint ≤ 720 then ("12hour")
  else if minutesPerPoint ≤ 1440 then ("1day")
  else if minutesPerPoint ≤ 2880 then ("2day")
  else ("1week")

/-- `calculateFullViewSampling` on the fetched range `[startMs, endMs]`. -/
def calculateFullViewSampling (startMs endMs targetPoints : Nat) : String :=
  let totalDays := (endMs - startMs) / 86400000
  let totalMinutes := totalDays * 24 * 60
  let minutesPerPoint := (totalMinutes + targetPoints - 1) / targetPoints
  roundToInterval minutesPerPoint

/-- The resolution ladder in ascending order, with rung sizes in minutes. -/
def resolutionLadder : List (Nat × String) :=
  [(15, ("15min")), (30, ("30min")), (60, ("1hour")), (180, ("3hour")),
    (360, ("6hour")), (720, ("12hour")), (1440, ("1day")), (2880, ("2day"))]

/-- The specification's reading of the resolver: `totalMinutes =
daysBetween * 1440`, `minutesPerPoint = totalMinutes / targetPointCount`
(exact), and the first ladder rung `r ≥ minutesPerPoint` — phrased
denominator-free as `totalMinutes ≤ r * targetPointCount` — with `1week` when
no rung suffices. -/
def specAdaptiveResolution (daysBetween targetPointCount : Nat) : String :=
  let totalMinutes := daysBetween * 1440
  match resolutionLadder.find? (fun p => totalMinutes ≤ p.1 * targetPointCount)
    with
  | some p => p.2
  | none => ("1week")

/-- Position of a resolution token on the ladder (coarser = larger). -/
def resolutionIndex (s : String) : Nat :=
  if s = ("15min") then 0
  else if s = ("30min") then 1
  else if s = ("1hour") then 2
  else if s = ("3hour") then 3
  else if s = ("6hour") then 4
  else if s = ("12hour") then 5
  else if s = ("1day") then 6
  else if s = ("2day") then 7
  else 8

theorem ceilDiv_le_iff (t tp r : Nat) (h : 0 < tp) :
    (t + tp - 1) / tp ≤ r ↔ t ≤ r * tp := by
  rw [Nat.div_le_iff_le_mul_add_pred h, Nat.mul_comm]
  omega

/-- The code's rounding agrees with the specification's ladder reading:
`roundToInterval ⌈M / tp⌉` is the first rung `r` with `M ≤ r * tp`, else
`1week`. -/
theorem roundToInterval_eq_ladder (M tp : Nat) (h : 0 < tp) :
    roundToInterval ((M + tp - 1) / tp)
      = match resolutionLadder.find? (fun p => M ≤ p.1 * tp) with
        | some p => p.2
        | none => ("1week") := by
  have h15 := ceilDiv_le_iff M tp 15 h
  have h30 := ceilDiv_le_iff M tp 30 h
  have h60 := ceilDiv_le_iff M tp 60 h
  have h180 := ceilDiv_le_iff M tp 180 h
  have h360 := ceilDiv_le_iff M tp 360 h
  have h720 := ceilDiv_le_iff M tp 720 h
  have h1440 := ceilDiv_le_iff M tp 1440 h
  have h2880 := ceilDiv_le_iff M tp 2880 h
  by_cases c15 : M ≤ 15 * tp
  · have m15 : (M + tp - 1) / tp ≤ 15 := h15.mpr c15
    simp [roundToInterval, resolutionLadder, List.find?, m15, c15]
  · have m15 : ¬ (M + tp - 1) / tp ≤ 15 := fun hx => c15 (h15.mp hx)
    by_cases c30 : M ≤ 30 * tp
    · have m30 : (M + tp - 1) / tp ≤ 30 := h30.mpr c30
      simp [roundToInterval, resolutionLadder, List.find?, m15, m30, c15, c30]
    · have m30 : ¬ (M + tp - 1) / tp ≤ 30 := fun hx => c30 (h30.mp hx)
      by_cases c60 : M ≤ 60 * tp
      · have m60 : (M + tp - 1) / tp ≤ 60 := h60.mpr c60
        simp [roundToInterval, resolutionLadder, List.find?, m15, m30, m60, c15, c30, c60]
      · have m60 : ¬ (M + tp - 1) / tp ≤ 60 := fun hx => c60 (h60.mp hx)
        by_cases c180 : M ≤ 180 * tp
        · have m180 : (M + tp - 1) / tp ≤ 180 := h180.mpr c180
          simp [roundToInterval, resolutionLadder, List.find?, m15, m30, m60, m180, c15, c30, c60, c180]
        · have m180 : ¬ (M + tp - 1) / tp ≤ 180 := fun hx => c180 (h180.mp hx)
          by_cases c360 : M ≤ 360 * tp
          · have m360 : (M + tp - 1) / tp ≤ 360 := h360.mpr c360
            simp [roundToInterval, resolutionLadder, List.find?, m15, m30, m60, m180, m360, c15, c30, c60, c180, c360]
          · have m360 : ¬ (M + tp - 1) / tp ≤ 360 := fun hx => c360 (h360.mp hx)
            by_cases c720 : M ≤ 720 * tp
            · have m720 : (M + tp - 1) / tp ≤ 720 := h720.mpr c720
              simp [roundToInterval, resolutionLadder, List.find?, m15, m30, m60, m180, m360, m720, c15, c30, c60, c180, c360, c720]
            · have m720 : ¬ (M + tp - 1) / tp ≤ 720 := fun hx => c720 (h720.mp hx)
              by_cases c1440 : M ≤ 1440 * tp
              · have m1440 : (M + tp - 1) / tp ≤ 1440 := h1440.mpr c1440
                simp [roundToInterval, resolutionLadder, List.find?, m15, m30, m60, m180, m360, m720, m1440, c15, c30, c60, c180, c360, c720, c1440]
              · have m1440 : ¬ (M + tp - 1) / tp ≤ 1440 := fun hx => c1440 (h1440.mp hx)
                by_cases c2880 : M ≤ 2880 * tp
                · have m2880 : (M + tp - 1) / tp ≤ 2880 := h2880.mpr c2880
                  simp [roundToInterval, resolutionLadder, List.find?, m15, m30, m60, m180, m360, m720, m1440, m2880, c15, c30, c60, c180, c360, c720, c1440, c2880]
                · have m2880 : ¬ (M + tp - 1) / tp ≤ 2880 := fun hx => c2880 (h2880.mp hx)
                  simp [roundToInterval, resolutionLadder, List.find?, m15, m30, m60, m180, m360, m720, m1440, m2880, c15, c30, c60, c180, c360, c720, c1440, c2880]

/-- `calculateFullViewSampling` equals the specification ladder choice. -/
theorem calculateFullViewSampling_eq_spec (startMs endMs targetPoints : Nat)
    (h : 0 < targetPoints) :
    calculateFullViewSampling startMs endMs targetPoints
      = specAdaptiveResolution ((endMs - startMs) / 86400000) targetPoints := by
  unfold calculateFullViewSampling specAdaptiveResolution
  simp only
  have hmin : (endMs - startMs) / 86400000 * 24 * 60
      = (endMs - startMs) / 86400000 * 1440 := by ring
  rw [hmin]
  exact roundToInterval_eq_ladder _ _ h

set_option maxHeartbeats 1000000 in
/-- The rounding if-chain is monotone with respect to the ladder order. -/
theorem roundToInterval_mono {a b : Nat} (h : a ≤ b) :
    resolutionIndex (roundToInterval a) ≤ resolutionIndex (roundToInterval b) := by
  unfold roundToInterval
  split_ifs <;> first | decide | omega

/-! ### Data orchestrator (`useViewModeData.loadData` / `preloadAdjacentRanges`)

The hook drives the segment-cache module via `generateCacheKey` / `get` /
`put`.  The readings payload is opaque (type parameter `α`).  The remote
collaborators are oracles: `rangeResult` for the lightweight `/range`
endpoint, and `oracle : String → Option (List α)` for the readings endpoint,
keyed by the cache key of the requested tuple (`none` = failed request). -/

structure CachedDataSegment (α : Type) where
  id : String
  wellNumber : String
  samplingRate : String
  startDate : String
  endDate : String
  data : List α
  cachedAt : Nat
  lastAccessed : Nat
  sizeBytes : Nat
deriving DecidableEq

/-- Modelled from the spec: `generateCacheKey(wellNumber, samplingRate,
startDate, endDate)` of the segment-cache module (the hook's cache module
variant with `generateCacheKey`/`put` is not among the provided sources; §4.2
prescribes a deterministic concatenation of the four fields in fixed order
with separators). -/
def generateCacheKey (wellNumber samplingRate startDate endDate : String) :
    String :=
  wellNumber ++ ("-") ++ samplingRate ++ ("-") ++ startDate ++ ("-") ++ endDate

/-- Modelled from the spec: `put(segment)` of the segment-cache module stores
the segment under its `id` with the fixed default TTL of one hour (§4.2). -/
def putSegment {α : Type} (st : Store (CachedDataSegment α))
    (seg : CachedDataSegment α) (now : Nat) : Store (CachedDataSegment α) :=
  IndexedDBCache.set st seg.id seg 3600000 now

structure CacheStatusMeta where
  hit : Bool
  preloaded : Bool
  cachedSegments : Nat

structure DataMetadata where
  totalPoints : Nat
  dateRange : Option (String × String)
  cacheStatus : CacheStatusMeta

/-- The `DataState` of the hook (`data`, `isLoading`, `error`, `cacheHit`,
`metadata`); a `Date` in the metadata is represented by its ISO string. -/
structure DataState (α : Type) where
  data : List α
  isLoading : Bool
  error : Option String
  cacheHit : Bool
  metadata : DataMetadata

/-- The initial `useState` value. -/
def initialDataState (α : Type) : DataState α :=
  { data := [], isLoading := false, error := none, cacheHit := false,
    metadata :=
      { totalPoints := 0, dateRange := none,
        cacheStatus :=
          { hit := false, preloaded := false, cachedSegments := 0 } } }

/-- `setState` at the top of `loadData` (line 107): mark loading, clear error. -/
def loadStartUpdate {α : Type} (prev : DataState α) : DataState α :=
  { prev with isLoading := true, error := none }

/-- The cache-hit `setState` (lines 133–150). -/
def cacheHitUpdate {α : Type} (prev : DataState α) (seg : CachedDataSegment α) :
    DataState α :=
  { prev with
    data := seg.data, isLoading := false, cacheHit := true,
    metadata :=
      { totalPoints := seg.data.length,
        dateRange := some (seg.startDate, seg.endDate),
        cacheStatus :=
          { hit := true, preloaded := false, cachedSegments := 1 } } }

/-- The fetch-success `setState` (lines 196–213): publishes the fetched data
unconditionally — there is no stale-response tag check in `loadData`. -/
def fetchSuccessUpdate {α : Type} (prev : DataState α) (d : List α)
    (startISO endISO : String) : DataState α :=
  { prev with
    data := d, isLoading := false, cacheHit := false,
    metadata :=
      { totalPoints := d.length, dateRange := some (startISO, endISO),
        cacheStatus :=
          { hit := false, preloaded := false, cachedSegments := 1 } } }

/-- The catch-branch `setState` (lines 222–226). -/
def fetchErrorUpdate {α : Type} (prev : DataState α) (msg : String) :
    DataState α :=
  { prev with isLoading := false, error := some msg }

/-- `Date.prototype.setMonth(month)` on a 0-based month index that may lie
outside `0..11` (ECMA `MakeDay`: the month is normalised into the year and an
overflowing day-of-month rolls into the following month). -/
def jsSetMonth (t : Nat) (m : Int) : Nat :=
  let c := civilFromDays (epochDay t)
  let ym : Int := (c.1 : Int) + Int.fdiv m 12
  let mn : Nat := (Int.emod m 12).toNat
  (daysFromCivil ym.toNat (mn + 1) 1 + ((c.2.2 : Int) - 1)).toNat * 86400000
    + msOfDay t

/-- `d.setMonth(d.getMonth() + delta)` as used by `preloadAdjacentRanges`. -/
def jsAddMonthsRoll (t : Nat) (delta : Int) : Nat :=
  jsSetMonth t (((civilFromDays (epochDay t)).2.1 : Int) - 1 + delta)

/-- `d.setFullYear(d.getFullYear() + delta)` (a Feb 29 day rolls over). -/
def jsAddYearsRoll (t : Nat) (delta : Int) : Nat :=
  let c := civilFromDays (epochDay t)
  (daysFromCivil ((c.1 : Int) + delta).toNat c.2.1 1 + ((c.2.2 : Int) - 1)).toNat
    * 86400000 + msOfDay t

/-- The effective sampling rate of `loadData` (lines 115–118): the config's
fixed rate, or for `adaptive` the result of `calculateFullViewSampling`, with
`1day` as the fallback when the range endpoint fails. -/
def resolveSamplingRate (mode : ViewModeType) (rangeResult : Option (Nat × Nat)) :
    String :=
  let cfg := VIEW_MODES mode
  if cfg.samplingRate = ("adaptive") then
    match rangeResult with
    | some r => calculateFullViewSampling r.1 r.2 cfg.targetPoints
    | none => ("1day")
  else cfg.samplingRate

/-- The cache key `loadData` computes for the current navigation state. -/
def loadDataKey (mode : ViewModeType) (wellNumber : String) (range : DateRange)
    (rangeResult : Option (Nat × Nat)) : String :=
  generateCacheKey wellNumber (resolveSamplingRate mode rangeResult)
    (toISOString range.start) (toISOString range.stop)

/-- One iteration of the `preloadAdjacentRanges` loop (lines 241–310): skip
offset `0`; shift the visible range by `offset` navigation steps (month or
year units; otherwise `continue`); skip if that key is already cached; else
issue a background fetch (recorded in the second component) and silently
`put` a successful result. -/
def preloadStep {α : Type} (mode : ViewModeType) (wellNumber rate : String)
    (range : DateRange) (now : Nat) (oracle : String → Option (List α))
    (acc : Store (CachedDataSegment α) × List String) (offset : Int) :
    Store (CachedDataSegment α) × List String :=
  if offset = 0 then acc
  else
    let step := (VIEW_MODES mode).navigationStep
    let monthsToAdd : Int := if step.unit = .month then (step.value : Int) * offset else 0
    let yearsToAdd : Int := if step.unit = .year then (step.value : Int) * offset else 0
    if monthsToAdd ≠ 0 ∨ yearsToAdd ≠ 0 then
      let offsetStart := if monthsToAdd ≠ 0 then jsAddMonthsRoll range.start monthsToAdd
        else jsAddYearsRoll range.start yearsToAdd
      let offsetEnd := if monthsToAdd ≠ 0 then jsAddMonthsRoll range.stop monthsToAdd
        else jsAddYearsRoll range.stop yearsToAdd
      let key := generateCacheKey wellNumber rate (toISOString offsetStart)
        (toISOString offsetEnd)
      match IndexedDBCache.get acc.1 key now with
      | (some _, c₁) => (c₁, acc.2)
      | (none, c₁) =>
          match oracle key with
          | some d =>
              (putSegment c₁
                { id := key, wellNumber := wellNumber, samplingRate := rate,
                  startDate := toISOString offsetStart,
                  endDate := toISOString offsetEnd, data := d, cachedAt := now,
                  lastAccessed := now, sizeBytes := 0 } now,
                acc.2 ++ [key])
          | none => (c₁, acc.2 ++ [key])
    else acc

/-- `preloadAdjacentRanges(samplingRate)`: a no-op for the `full` mode, else
the fold of `preloadStep` over the mode's `preloadStrategy`. -/
def preloadAdjacentRanges {α : Type} (mode : ViewModeType)
    (wellNumber rate : String) (range : DateRange)
    (cache : Store (CachedDataSegment α)) (now : Nat)
    (oracle : String → Option (List α)) :
    Store (CachedDataSegment α) × List String :=
  if mode = .full then (cache, [])
  else (VIEW_MODES mode).preloadStrategy.foldl
    (preloadStep mode wellNumber rate range now oracle) (cache, [])

/-- The outcome of one `loadData` invocation: the published state, whether the
primary readings fetch was issued, the keys for which background preload
fetches were issued, and the cache afterwards. -/
structure LoadOutcome (α : Type) where
  state : DataState α
  primaryFetched : Bool
  preloadFetchedKeys : List String
  cache : Store (CachedDataSegment α)

/-- `loadData` (lines 106–232): mark loading, resolve the sampling rate,
compute the cache key, try the cache (hit publishes the stored segment and
only triggers preloads), else fetch, `put` and publish, or surface the error. -/
def loadData {α : Type} (prev : DataState α) (mode : ViewModeType)
    (wellNumber : String) (range : DateRange)
    (rangeResult : Option (Nat × Nat)) (cache : Store (CachedDataSegment α))
    (now : Nat) (oracle : String → Option (List α)) : LoadOutcome α :=
  let st₀ := loadStartUpdate prev
  let rate := resolveSamplingRate mode rangeResult
  let cacheKey := loadDataKey mode wellNumber range rangeResult
  match IndexedDBCache.get cache cacheKey now with
  | (some seg, c₁) =>
      let pre := preloadAdjacentRanges mode wellNumber rate range c₁ now oracle
      { state := cacheHitUpdate st₀ seg, primaryFetched := false,
        preloadFetchedKeys := pre.2, cache := pre.1 }
  | (none, c₁) =>
      match oracle cacheKey with
      | some d =>
          let seg : CachedDataSegment α :=
            { id := cacheKey, wellNumber := wellNumber, samplingRate := rate,
              startDate := toISOString range.start,
              endDate := toISOString range.stop, data := d, cachedAt := now,
              lastAccessed := now, sizeBytes := 0 }
          let c₂ := putSegment c₁ seg now
          let pre := preloadAdjacentRanges mode wellNumber rate range c₂ now oracle
          { state := fetchSuccessUpdate st₀ d (toISOString range.start)
              (toISOString range.stop),
            primaryFetched := true, preloadFetchedKeys := pre.2, cache := pre.1 }
      | none =>
          { state := fetchErrorUpdate st₀ ("Failed to load data"),
            primaryFetched := true, preloadFetchedKeys := [], cache := c₁ }

/-- On a cache hit, `loadData` skips the primary fetch and publishes the
stored readings unchanged, marking the hit. -/
theorem loadData_cacheHit {α : Type} (prev : DataState α) (mode : ViewModeType)
    (wellNumber : String) (range : DateRange)
    (rangeResult : Option (Nat × Nat)) (cache : Store (CachedDataSegment α))
    (now : Nat) (oracle : String → Option (List α))
    (seg : CachedDataSegment α) (c₁ : Store (CachedDataSegment α))
    (hget : IndexedDBCache.get cache
        (loadDataKey mode wellNumber range rangeResult) now = (some seg, c₁)) :
    (loadData prev mode wellNumber range rangeResult cache now oracle).primaryFetched
        = false ∧
      (loadData prev mode wellNumber range rangeResult cache now oracle).state.data
        = seg.data ∧
      (loadData prev mode wellNumber range rangeResult cache now oracle).state.cacheHit
        = true := by
  simp only [loadData]
  rw [hget]
  exact ⟨rfl, rfl, rfl⟩

/-! ### Interleaved invocations (stale responses)

Concurrent `loadData` invocations interact only through `setState`; the
effect of a run is the fold of the individual updates in the order the
event loop performs them.  A fetch resolution applies `fetchSuccessUpdate`
unconditionally — `loadData` never compares the response against the current
navigation state. -/

inductive OrchestratorEvent (α : Type) where
  | start
  | resolve (d : List α) (startISO endISO : String)

/-- Replay a sequence of interleaved `loadData` state updates. -/
def replayEvents {α : Type} (s : DataState α) :
    List (OrchestratorEvent α) → DataState α
  | [] => s
  | .start :: es => replayEvents (loadStartUpdate s) es
  | .resolve d a b :: es => replayEvents (fetchSuccessUpdate s d a b) es

/-- Whatever fetch resolves last wins: after any event sequence ending in a
fetch resolution, the published data is that resolution's payload — even when
it belongs to a superseded navigation state. -/
theorem replayEvents_last_resolve {α : Type} (s : DataState α)
    (es : List (OrchestratorEvent α)) (d : List α) (a b : String) :
    (replayEvents s (es ++ [.resolve d a b])).data = d := by
  induction es generalizing s with
  | nil => rfl
  | cons e es ih => cases e <;> simpa [replayEvents] using ih _

/-! ## The claims -/

/-- A segment present before a cache operation that is absent after it. -/
def evictionOccurred {α : Type} (before after : Store α) : Prop :=
  ∃ k, k ∈ IndexedDBCache.getAllKeys before ∧
    k ∉ IndexedDBCache.getAllKeys after

/-- The LRU scenario of the claim: segment `A` cached first, segment `B`
cached later and then accessed via `get` (so `A` is the least recently
accessed), followed by a further insert `C`.  Whatever sizes the payloads
have — e.g. three 30 MB segments against the 50 MB design budget — the code
tracks no sizes and removes nothing. -/
def lruStep1 : SmartCacheState :=
  cacheTimeSeriesData ⟨[], initialStats⟩ ("A") [⟨0, 0, ("A")⟩] 3600000 1000

def lruStep2 : SmartCacheState :=
  cacheTimeSeriesData lruStep1 ("B") [⟨0, 0, ("B")⟩] 3600000 2000

def lruStep3 : SmartCacheState := (getTimeSeriesData lruStep2 ("B") 3000 0).2

def lruStep4 : SmartCacheState :=
  cacheTimeSeriesData lruStep3 ("C") [⟨0, 0, ("C")⟩] 3600000 4000

/-- Claim C1, counterexample: in the claim's own scenario — a recently
accessed segment `B`, a least-recently-accessed segment `A`, then a
budget-exceeding insert `C` — no segment whatsoever is evicted: the store
ends holding all three keys, so in particular no eviction in ascending
`lastAccessedAt` order takes place. -/
theorem put_lru_eviction_counterexample :
    IndexedDBCache.getAllKeys lruStep4.store = [("A"), ("B"), ("C")] ∧
      ¬ evictionOccurred lruStep3.store lruStep4.store := by
  refine ⟨by decide, ?_⟩
  rintro ⟨k, hk, hk'⟩
  have h3 : IndexedDBCache.getAllKeys lruStep3.store = [("A"), ("B")] := by decide
  have h4 : IndexedDBCache.getAllKeys lruStep4.store = [("A"), ("B"), ("C")] := by
    decide
  rw [h3] at hk
  rw [h4] at hk'
  simp only [List.mem_cons, List.not_mem_nil, or_false] at hk hk'
  tauto

/-- Claim C1, amended: `cacheTimeSeriesData` (`set` of the store) enforces no
storage budget and never evicts: after a put the stored keys are exactly the
previous keys plus the written key, for every state, payload, TTL and clock —
in particular for payloads of any size.  Entries leave the store only through
lazy TTL expiration on read, explicit deletion, or `clear`. -/
theorem put_never_evicts (s : SmartCacheState) (key : String)
    (data : List TimeSeriesData) (ttl now : Nat) (k : String) :
    k ∈ IndexedDBCache.getAllKeys (cacheTimeSeriesData s key data ttl now).store
      ↔ k ∈ IndexedDBCache.getAllKeys s.store ∨ k = key :=
  mem_cacheTimeSeriesData_iff s key data ttl now k

/-- Claim C2, counterexample: invocation for `S1` starts, invocation for `S2`
starts, `S2`'s fetch resolves first (publishing `[2]`), then `S1`'s stale
fetch resolves — and overwrites the state: the finally published data is
`S1`'s `[1]`, not `S2`'s `[2]`. -/
theorem stale_fetch_overwrite_counterexample :
    (replayEvents (initialDataState Nat)
        [.start, .start,
          .resolve [2] (toISOString 1675209600000) (toISOString 1677628800000),
          .resolve [1] (toISOString 1672531200000) (toISOString 1675123200000)]).data
        = [1] ∧
      ([1] : List Nat) ≠ [2] := by
  exact ⟨rfl, by decide⟩

/-- Claim C2, amended: `loadData` performs no stale-response check; every
fetch resolution publishes its own payload unconditionally, so after any
interleaving of invocations the published data is that of the last fetch to
resolve — which may belong to a superseded navigation state. -/
theorem last_resolution_wins {α : Type} (s : DataState α)
    (es : List (OrchestratorEvent α)) (d : List α) (a b : String) :
    (replayEvents s (es ++ [.resolve d a b])).data = d :=
  replayEvents_last_resolve s es d a b

/-- Claim C3: the cache-key template of `getDataRange`/`cacheDataRange` is
deterministic and injective on `(well, resolution, rangeStart, rangeEnd)` for
valid date values: two calls agree exactly when all four arguments agree — in
particular distinct ranges give distinct keys, even for well identifiers
containing the `-` separator. -/
theorem cacheKey_deterministic_injective {w₁ w₂ : String} {s₁ e₁ s₂ e₂ : Nat}
    {r₁ r₂ : Resolution}
    (hs₁ : s₁ ≤ 253402300799999) (he₁ : e₁ ≤ 253402300799999)
    (hs₂ : s₂ ≤ 253402300799999) (he₂ : e₂ ≤ 253402300799999) :
    dataRangeKey w₁ s₁ e₁ r₁ = dataRangeKey w₂ s₂ e₂ r₂
      ↔ w₁ = w₂ ∧ s₁ = s₂ ∧ e₁ = e₂ ∧ r₁ = r₂ := by
  constructor
  · exact dataRangeKey_inj hs₁ he₁ hs₂ he₂
  · rintro ⟨rfl, rfl, rfl, rfl⟩
    rfl

/-- Witness for C3 at a well identifier that itself contains the separator. -/
theorem cacheKey_deterministic_injective_witness :
    (0 : Nat) ≤ 253402300799999 ∧ (86400000 : Nat) ≤ 253402300799999 ∧
      (dataRangeKey ("W-1") 0 86400000 .high = dataRangeKey ("W-1") 0 86400000 .high
        ↔ ("W-1") = ("W-1") ∧ (0 : Nat) = 0 ∧ (86400000 : Nat) = 86400000 ∧
            Resolution.high = .high) :=
  ⟨by decide, by decide,
    cacheKey_deterministic_injective (by decide) (by decide) (by decide) (by decide)⟩

/-- Claim C4: a stored entry read while `now ≤ storedAt + ttl` yields the
stored payload with the store untouched; read when `now > storedAt + ttl` it
yields absent and the expired entry is deleted as a side effect. -/
theorem get_lazy_expiration {α : Type} (st : Store α) (key : String)
    (e : CacheEntry α) (now : Nat)
    (hfind : List.find? (fun x => x.key == key) st = some e) :
    (now ≤ e.timestamp + e.ttl →
        IndexedDBCache.get st key now = (some e.data, st)) ∧
      (e.timestamp + e.ttl < now →
        IndexedDBCache.get st key now = (none, IndexedDBCache.delete st key) ∧
          key ∉ IndexedDBCache.getAllKeys (IndexedDBCache.get st key now).2) :=
  get_spec st key e now hfind

/-- Witness for C4: an entry stored at time 100 with TTL 50 is retrievable at
145 and absent (and deleted) at 151. -/
theorem get_lazy_expiration_witness :
    (IndexedDBCache.get [⟨("k"), (7 : Nat), 100, 50⟩] ("k") 145
        = (some 7, [⟨("k"), (7 : Nat), 100, 50⟩])) ∧
      IndexedDBCache.get [⟨("k"), (7 : Nat), 100, 50⟩] ("k") 151
        = (none, IndexedDBCache.delete [⟨("k"), (7 : Nat), 100, 50⟩] ("k")) :=
  ⟨(get_lazy_expiration [⟨("k"), (7 : Nat), 100, 50⟩] ("k")
      ⟨("k"), (7 : Nat), 100, 50⟩ 145 (by decide)).1 (by decide),
    ((get_lazy_expiration [⟨("k"), (7 : Nat), 100, 50⟩] ("k")
      ⟨("k"), (7 : Nat), 100, 50⟩ 151 (by decide)).2 (by decide)).1⟩

/-- Concrete cache-hit scenario for C5: mode `1month`, well `W1` over January
2023, the requested segment already cached and unexpired. -/
def c5Range : DateRange := ⟨1672531200000, 1675123200000⟩

def c5Key : String := loadDataKey .m1 ("W1") c5Range none

def c5Seg : CachedDataSegment Nat :=
  { id := c5Key, wellNumber := ("W1"), samplingRate := ("15min"),
    startDate := toISOString c5Range.start, endDate := toISOString c5Range.stop,
    data := [42], cachedAt := 1675123200000, lastAccessed := 1675123200000,
    sizeBytes := 0 }

def c5Cache : Store (CachedDataSegment Nat) :=
  [⟨c5Key, c5Seg, 1675123200000, 3600000⟩]

def c5Oracle : String → Option (List Nat) := fun _ => some [7]

/-- Claim C5, counterexample: with the requested tuple cached, `loadData`
skips the primary fetch and publishes the stored readings — but the
invocation still issues remote readings fetches: the background preload step
fetches the two uncached neighbouring ranges. -/
theorem cache_hit_still_preloads_counterexample :
    (loadData (initialDataState Nat) .m1 ("W1") c5Range none c5Cache
        1675123200000 c5Oracle).primaryFetched = false ∧
      (loadData (initialDataState Nat) .m1 ("W1") c5Range none c5Cache
        1675123200000 c5Oracle).state.data = [42] ∧
      (loadData (initialDataState Nat) .m1 ("W1") c5Range none c5Cache
        1675123200000 c5Oracle).preloadFetchedKeys ≠ [] := by
  refine ⟨by decide, by decide, by decide⟩

/-- Claim C5, amended: when the store holds an unexpired segment for the
computed key, `loadData` does not issue the primary readings fetch and
publishes the stored readings unchanged, marking the result a cache hit;
background preloads for neighbouring ranges may still fetch. -/
theorem cache_hit_skips_primary_fetch {α : Type} (prev : DataState α)
    (mode : ViewModeType) (wellNumber : String) (range : DateRange)
    (rangeResult : Option (Nat × Nat)) (cache : Store (CachedDataSegment α))
    (now : Nat) (oracle : String → Option (List α))
    (seg : CachedDataSegment α) (c₁ : Store (CachedDataSegment α))
    (hget : IndexedDBCache.get cache
        (loadDataKey mode wellNumber range rangeResult) now = (some seg, c₁)) :
    (loadData prev mode wellNumber range rangeResult cache now oracle).primaryFetched
        = false ∧
      (loadData prev mode wellNumber range rangeResult cache now oracle).state.data
        = seg.data ∧
      (loadData prev mode wellNumber range rangeResult cache now oracle).state.cacheHit
        = true :=
  loadData_cacheHit prev mode wellNumber range rangeResult cache now oracle seg
    c₁ hget

/-- Witness for the amended C5 at the concrete scenario. -/
theorem cache_hit_skips_primary_fetch_witness :
    IndexedDBCache.get c5Cache (loadDataKey .m1 ("W1") c5Range none)
        1675123200000 = (some c5Seg, c5Cache) ∧
      (loadData (initialDataState Nat) .m1 ("W1") c5Range none c5Cache
          1675123200000 c5Oracle).primaryFetched = false ∧
        (loadData (initialDataState Nat) .m1 ("W1") c5Range none c5Cache
          1675123200000 c5Oracle).state.data = c5Seg.data ∧
        (loadData (initialDataState Nat) .m1 ("W1") c5Range none c5Cache
          1675123200000 c5Oracle).state.cacheHit = true :=
  ⟨by decide,
    cache_hit_skips_primary_fetch (initialDataState Nat) .m1 ("W1") c5Range
      none c5Cache 1675123200000 c5Oracle c5Seg c5Cache (by decide)⟩

/-- Claim C6: for the adaptive policy the resolver computes
`totalMinutes = daysBetween * 1440`, divides by the target point count, and
returns the first rung of the ladder `15min … 1week` at least as large as the
minutes-per-point quotient, `1week` when no rung suffices.  Stated as
equality of the code's computation with the specification-side ladder
choice. -/
theorem adaptive_resolution_ladder (startMs endMs targetPoints : Nat)
    (h : 0 < targetPoints) :
    calculateFullViewSampling startMs endMs targetPoints
      = specAdaptiveResolution ((endMs - startMs) / 86400000) targetPoints :=
  calculateFullViewSampling_eq_spec startMs endMs targetPoints h

/-- Witness for C6: a 3650-day span at 5000 target points resolves to `2day`
on both sides. -/
theorem adaptive_resolution_ladder_witness :
    0 < 5000 ∧
      calculateFullViewSampling 0 315360000000 5000
        = specAdaptiveResolution ((315360000000 - 0) / 86400000) 5000 :=
  ⟨by decide, adaptive_resolution_ladder 0 315360000000 5000 (by decide)⟩

/-- Claim C7: for a fixed target point count the adaptive resolution is
monotone in the span: a span at least as long never resolves to a finer
(smaller-index) rung. -/
theorem adaptive_resolution_monotone (s₁ e₁ s₂ e₂ targetPoints : Nat)
    (h : e₁ - s₁ ≤ e₂ - s₂) :
    resolutionIndex (calculateFullViewSampling s₁ e₁ targetPoints)
      ≤ resolutionIndex (calculateFullViewSampling s₂ e₂ targetPoints) := by
  unfold calculateFullViewSampling
  simp only
  apply roundToInterval_mono
  apply Nat.div_le_div_right
  have hd : (e₁ - s₁) / 86400000 ≤ (e₂ - s₂) / 86400000 :=
    Nat.div_le_div_right h
  omega

/-- Witness for C7: a one-year span resolves no coarser than a ten-year span
at 5000 points. -/
theorem adaptive_resolution_monotone_witness :
    (31536000000 - 0 : Nat) ≤ 315360000000 - 0 ∧
      resolutionIndex (calculateFullViewSampling 0 31536000000 5000)
        ≤ resolutionIndex (calculateFullViewSampling 0 315360000000 5000) :=
  ⟨by decide, adaptive_resolution_monotone 0 31536000000 0 315360000000 5000
    (by decide)⟩

/-- Claim C8: with a known dataset span the guards simulate one navigation
step and reject a step that would leave the span — `canNavigateNext` is false
whenever the stepped range ends past the dataset end, `canNavigatePrevious`
is false whenever the stepped range starts before the dataset start; and in
the concrete scenario (span 2020-01-01 … 2024-06-01, mode `1year`, center
2024-03-01) `canNavigateNext` is false. -/
theorem navigation_guards (dr : DateRange) (now : Nat) (mode : ViewModeType)
    (center : Nat) :
    (dr.stop < (calculateDateRange (some dr) now mode
          (nextTestDate mode center)).stop →
        canNavigateNext (some dr) now mode center = false) ∧
      ((calculateDateRange (some dr) now mode
          (prevTestDate mode center)).start < dr.start →
        canNavigatePrevious (some dr) now mode center = false) ∧
      canNavigateNext (some ⟨1577836800000, 1717200000000⟩) 0 .y1 1709251200000
        = false := by
  refine ⟨?_, ?_, by decide⟩
  · intro h
    unfold canNavigateNext
    simp only
    rw [decide_eq_false]
    omega
  · intro h
    unfold canNavigatePrevious
    simp only
    rw [decide_eq_false]
    omega

/-- Witness for C8 at the concrete spec scenario, in both directions. -/
theorem navigation_guards_witness :
    ((⟨1577836800000, 1717200000000⟩ : DateRange).stop
        < (calculateDateRange (some ⟨1577836800000, 1717200000000⟩) 0 .y1
            (nextTestDate .y1 1709251200000)).stop ∧
      canNavigateNext (some ⟨1577836800000, 1717200000000⟩) 0 .y1 1709251200000
        = false) ∧
      ((calculateDateRange (some ⟨1577836800000, 1717200000000⟩) 0 .y1
            (prevTestDate .y1 1592697600000)).start
          < (⟨1577836800000, 1717200000000⟩ : DateRange).start ∧
        canNavigatePrevious (some ⟨1577836800000, 1717200000000⟩) 0 .y1
          1592697600000 = false) :=
  ⟨⟨by decide,
      (navigation_guards ⟨1577836800000, 1717200000000⟩ 0 .y1 1709251200000).1
        (by decide)⟩,
    ⟨by decide,
      (navigation_guards ⟨1577836800000, 1717200000000⟩ 0 .y1 1592697600000).2.1
        (by decide)⟩⟩

/-- Concrete store for the C9 counterexample: segments of the two distinct
wells `W1` and `W1-A`. -/
def c9State : SmartCacheState :=
  cacheDataRange
    (cacheDataRange ⟨[], initialStats⟩ ("W1") 0 86400000 [] .high 3600000 0)
    ("W1-A") 0 86400000 [] .high 3600000 0

/-- Claim C9, counterexample: `invalidateWellData "W1"` also deletes the
segment cached for the distinct well `W1-A` (its key starts with `W1-`), and
the operation returns no removal count (`Promise<void>` in the source). -/
theorem invalidate_removes_other_well_counterexample :
    dataRangeKey ("W1-A") 0 86400000 .high
        ∈ IndexedDBCache.getAllKeys c9State.store ∧
      ("W1-A") ≠ ("W1") ∧
      dataRangeKey ("W1-A") 0 86400000 .high
        ∉ IndexedDBCache.getAllKeys (invalidateWellData c9State ("W1")).store := by
  refine ⟨by decide, by decide, by decide⟩

/-- Claim C9, amended: `invalidateWellData well` deletes exactly the entries
whose key starts with `` `${well}-` ``: every segment keyed for that well is
removed (regardless of resolution and range), but segments of any other well
whose identifier extends `well` past the separator are removed as well, and
no removal count is reported. -/
theorem invalidate_removes_by_key_match (s : SmartCacheState) (well : String) :
    (∀ k, k ∈ IndexedDBCache.getAllKeys (invalidateWellData s well).store
        ↔ k ∈ IndexedDBCache.getAllKeys s.store ∧
            jsStartsWith k (well ++ ("-")) = false) ∧
      ∀ startMs endMs r, dataRangeKey well startMs endMs r
        ∉ IndexedDBCache.getAllKeys (invalidateWellData s well).store := by
  refine ⟨fun k => mem_invalidateWellData_iff s well k, ?_⟩
  intro startMs endMs r hmem
  have h := (mem_invalidateWellData_iff s well _).1 hmem
  rw [dataRangeKey_jsStartsWith] at h
  cases h.2

/-- Claim C10: starting from freshly cleared statistics, after any sequence of
`getTimeSeriesData` lookups `totalRequests` is the number of lookups,
`totalHits` counts exactly the lookups the store answered with a present
unexpired value, `totalHits ≤ totalRequests`, and whenever requests were made
`hitRate = 100 * totalHits / totalRequests`. -/
theorem stats_run_invariants (s₀ : SmartCacheState) (ls : List Lookup) :
    (runLookups (clearStats s₀) ls).stats.totalRequests = ls.length ∧
      (runLookups (clearStats s₀) ls).stats.totalHits
        = hitCount (clearStats s₀).store ls ∧
      (runLookups (clearStats s₀) ls).stats.totalHits
        ≤ (runLookups (clearStats s₀) ls).stats.totalRequests ∧
      (0 < (runLookups (clearStats s₀) ls).stats.totalRequests →
        (runLookups (clearStats s₀) ls).stats.hitRate
          = 100 * ((runLookups (clearStats s₀) ls).stats.totalHits : Rat)
              / ((runLookups (clearStats s₀) ls).stats.totalRequests : Rat)) := by
  obtain ⟨hreq, hhits, hrate⟩ := runLookups_stats ls (clearStats s₀)
  have hclear₁ : (clearStats s₀).stats.totalRequests = 0 := rfl
  have hclear₂ : (clearStats s₀).stats.totalHits = 0 := rfl
  have hcount : ∀ (st : Store (List TimeSeriesData)) (l : List Lookup),
      hitCount st l ≤ l.length := by
    intro st l
    induction l generalizing st with
    | nil => simp [hitCount]
    | cons x xs ih =>
        simp only [hitCount, List.length_cons]
        have := ih (IndexedDBCache.get st x.key x.now).2
        split_ifs <;> omega
  refine ⟨by omega, by omega, ?_, ?_⟩
  · have := hcount (clearStats s₀).store ls
    omega
  · intro hpos
    have hlen : 0 < ls.length := by omega
    rw [hrate hlen]
    rw [div_mul_eq_mul_div, mul_comm]

/-- Witness for C10: one hit lookup against a singleton store. -/
theorem stats_run_invariants_witness :
    (runLookups (clearStats ⟨[⟨("k"), [], 0, 10⟩], initialStats⟩)
        [⟨("k"), 5, 0⟩]).stats.totalRequests = 1 ∧
      0 < (runLookups (clearStats ⟨[⟨("k"), [], 0, 10⟩], initialStats⟩)
        [⟨("k"), 5, 0⟩]).stats.totalRequests ∧
      (runLookups (clearStats ⟨[⟨("k"), [], 0, 10⟩], initialStats⟩)
          [⟨("k"), 5, 0⟩]).stats.hitRate
        = 100 * ((runLookups (clearStats ⟨[⟨("k"), [], 0, 10⟩], initialStats⟩)
              [⟨("k"), 5, 0⟩]).stats.totalHits : Rat)
            / ((runLookups (clearStats ⟨[⟨("k"), [], 0, 10⟩], initialStats⟩)
              [⟨("k"), 5, 0⟩]).stats.totalRequests : Rat) := by
  obtain ⟨h1, -, -, h4⟩ :=
    stats_run_invariants ⟨[⟨("k"), [], 0, 10⟩], initialStats⟩ [⟨("k"), 5, 0⟩]
  exact ⟨h1, by rw [h1]; decide, h4 (by rw [h1]; decide)⟩

end WLV
